import Mathlib

/-!
# kube-image-deployer: registry resolver and Google Chat card layout

A shallow embedding of `remoteRegistry/docker/docker.go` and of the card
builder in `logger/googlechat.go`.

Conventions of the embedding:

* a Go `string` is a Lean `String`; `a + b` and `fmt.Sprintf("%s:%s", a, b)` are
  `++`;
* a Go `error` is `Option GoError`, with `none` for `nil`;
* a Go `interface{}` value is a `GoValue`; the type assertion `v.(string)`
  is `GoValue.assertString`, which fails on a value that is no string;
* a Go `map[string]V` is the list of its entries in the order in which a
  `range` loop visits them.  Go leaves that order unspecified, so statements
  about a map quantify over the permutations of its entries;
* the registry transport and the reference parser of go-containerregistry
  are parameters (`Registry`); every transport call is recorded in the
  `World`.
-/

namespace KubeImageDeployer

/-! ## Go prelude -/

/-- A Go `error` value that is not `nil`. -/
structure GoError where
  msg : String
  deriving DecidableEq, Repr

/-- A value of Go type `interface{}`: a string, or a value of another
dynamic type (the `nil` interface included). -/
inductive GoValue where
  | str (s : String)
  | nonString
  deriving DecidableEq, Repr

/-- The type assertion `v.(string)`; `none` stands for the run-time panic. -/
def GoValue.assertString : GoValue → Option String
  | .str s => some s
  | .nonString => none

/-- Go `strings.HasPrefix(s, pre)`. -/
def HasPrefix (s pre : String) : Bool :=
  pre.data.isPrefixOf s.data

/-- Go `strings.Contains(s, substr)`: `substr` occurs in `s`. -/
def Contains (s substr : String) : Bool :=
  s.data.tails.any (fun t => substr.data.isPrefixOf t)

/-! ## Credentials -/

/-- An `authn.Keychain`: the library's `authn.DefaultKeychain` or a keychain
built from the configuration. -/
inductive Keychain where
  | DefaultKeychain
  | configured (name : String)
  deriving DecidableEq, Repr

/-- The method `getAuthKeyChain`: `imageAuthMap` lists the entries of the map
in the order the `range` loop visits them. -/
def getAuthKeyChain (imageAuthMap : List (String × Keychain)) (url : String) : Keychain :=
  match imageAuthMap with
  | [] => Keychain.DefaultKeychain
  | (key, value) :: rest =>
    if HasPrefix url key then value else getAuthKeyChain rest url

/-- The rule the specification words describe: the credential of the first
rule, in configured order, whose prefix is a prefix of the url, and the
default credential when there is none. -/
def firstConfiguredRule (rules : List (String × Keychain)) (url : String) : Keychain :=
  match rules.find? (fun r => HasPrefix url r.1) with
  | some r => r.2
  | none => Keychain.DefaultKeychain

/-! ## Collaborators of the resolver -/

/-- A `name.Reference`, the result of `name.ParseReference`. -/
structure Reference where
  name : String
  deriving DecidableEq, Repr

/-- A `name.Repository`, the result of `name.NewRepository`. -/
structure Repository where
  name : String
  deriving DecidableEq, Repr

/-- A `v1.Image` handle, the result of `remote.Image`. -/
structure Image where
  manifest : String
  deriving DecidableEq, Repr

/-- A call of the registry transport. -/
inductive TransportCall where
  | image (ref : Reference) (keychain : Keychain)
  | list (repo : Repository) (keychain : Keychain)
  deriving DecidableEq, Repr

/-- What lies outside the process: the clock and the record of the transport
calls made so far.  The transport may answer differently in different
worlds. -/
structure World where
  now : Nat
  calls : List TransportCall
  deriving DecidableEq, Repr

/-- The functions the resolver calls and whose code is not part of
`docker.go`: `name.ParseReference`, `name.NewRepository`, `remote.Image`,
`img.Digest` followed by `digest.String`, `remote.List` (all of
go-containerregistry) and `util.GetHighestVersionWithFilter`. -/
structure Env where
  ParseReference : String → Except GoError Reference
  NewRepository : String → Except GoError Repository
  remoteImage : World → Reference → Keychain → Except GoError Image
  Digest : Image → Except GoError String
  remoteList : World → Repository → Keychain → Except GoError (List String)
  GetHighestVersionWithFilter : List String → String → Except GoError String

/-- The pair `(interface{}, error)` a getter and `cache.Get` return. -/
abbrev GoResult := GoValue × Option GoError

/-- A `func() (interface{}, error)` that may call the transport. -/
abbrev Getter := World → GoResult × World

/-- The behaviour of `(*util.Cache).Get` on a cache state of type `σ`. -/
abbrev CacheGet (σ : Type) := σ → World → String → Getter → GoResult × σ × World

/-- The receiver `RemoteRegistryDocker`, with the cache state in place of the
pointer to the cache. -/
structure RemoteRegistryDocker (σ : Type) where
  imageAuthMap : List (String × Keychain)
  cache : σ

/-- How a call of a method with result `(string, error)` ends. -/
inductive Outcome where
  | returned (s : String) (err : Option GoError)
  | panicked
  deriving DecidableEq, Repr

/-- Outcome of a resolver method together with the cache and the world it
leaves behind. -/
structure Resolution (σ : Type) where
  out : Outcome
  cache : σ
  world : World

/-! ## The resolver (`docker.go`) -/

/-- The getter passed to `cache.Get` in `getImageDigestHash`. -/
def digestGetter (E : Env) (ref : Reference) (authKeyChain : Keychain) : Getter := fun w =>
  let w1 : World := { w with calls := w.calls ++ [TransportCall.image ref authKeyChain] }
  match E.remoteImage w ref authKeyChain with
  | .ok img =>
    match E.Digest img with
    | .ok digest => ((GoValue.str digest, none), w1)
    | .error err => ((GoValue.str "", some err), w1)
  | .error err => ((GoValue.str "", some err), w1)

/-- The method `getImageDigestHash`. -/
def getImageDigestHash {σ : Type} (E : Env) (Get : CacheGet σ)
    (d : RemoteRegistryDocker σ) (w : World) (url tag : String) : Resolution σ :=
  let fullUrl := url ++ ":" ++ tag
  let authKeyChain := getAuthKeyChain d.imageAuthMap url
  match E.ParseReference fullUrl with
  | .error err => { out := .returned "" (some err), cache := d.cache, world := w }
  | .ok ref =>
    match Get d.cache w fullUrl (digestGetter E ref authKeyChain) with
    | ((hash, err), cache, w1) =>
      match hash.assertString with
      | some s => { out := .returned (url ++ "@" ++ s) err, cache := cache, world := w1 }
      | none => { out := .panicked, cache := cache, world := w1 }

/-- The getter passed to `cache.Get` in `getImageHighestVersionTag`. -/
def tagGetter (E : Env) (repo : Repository) (authKeyChain : Keychain) (tag : String) :
    Getter := fun w =>
  let w1 : World := { w with calls := w.calls ++ [TransportCall.list repo authKeyChain] }
  match E.remoteList w repo authKeyChain with
  | .error err => ((GoValue.str "", some err), w1)
  | .ok tags =>
    match E.GetHighestVersionWithFilter tags tag with
    | .error err => ((GoValue.str "", some err), w1)
    | .ok t => ((GoValue.str t, none), w1)

/-- The method `getImageHighestVersionTag`. -/
def getImageHighestVersionTag {σ : Type} (E : Env) (Get : CacheGet σ)
    (d : RemoteRegistryDocker σ) (w : World) (url tag : String) : Resolution σ :=
  let authKeyChain := getAuthKeyChain d.imageAuthMap url
  match E.NewRepository url with
  | .error err => { out := .returned "" (some err), cache := d.cache, world := w }
  | .ok repo =>
    let cacheKey := url ++ "___" ++ tag
    match Get d.cache w cacheKey (tagGetter E repo authKeyChain tag) with
    | ((_, some err), cache, w1) =>
      { out := .returned "" (some err), cache := cache, world := w1 }
    | ((target, none), cache, w1) =>
      match target.assertString with
      | some s => { out := .returned (url ++ ":" ++ s) none, cache := cache, world := w1 }
      | none => { out := .panicked, cache := cache, world := w1 }

/-- The method `GetImageString`. -/
def GetImageString {σ : Type} (E : Env) (Get : CacheGet σ)
    (d : RemoteRegistryDocker σ) (w : World) (url tag : String) : Resolution σ :=
  if Contains tag "*" then
    getImageHighestVersionTag E Get d w url tag
  else
    getImageDigestHash E Get d w url tag

/-- The cache key `GetImageString` uses for `url` and `tag`. -/
def cacheKey (url tag : String) : String :=
  if Contains tag "*" then url ++ "___" ++ tag else url ++ ":" ++ tag

/-! ## The cache (`util.Cache`) -/

/-- Modelled from the spec: the `CacheEntry` of `util.Cache`, whose code is
not among the sources.  The in-flight marker of the specification serves
concurrent callers only and has no counterpart in this sequential model. -/
structure CacheEntry where
  value : GoResult
  computedAt : Nat
  ttl : Nat
  deriving DecidableEq, Repr

/-- Modelled from the spec: the state of `util.Cache` (MemoizingCache), whose
code is not among the sources: the TTL of success entries, the separately
configured TTL of failure entries, and the entries by key. -/
structure Cache where
  ttl : Nat
  failureTtl : Nat
  entries : List (String × CacheEntry)
  deriving DecidableEq, Repr

/-- Modelled from the spec: an entry of `util.Cache` is fresh while its age
is at most its TTL. -/
def CacheEntry.fresh (e : CacheEntry) (now : Nat) : Bool :=
  decide (now - e.computedAt ≤ e.ttl)

/-- Modelled from the spec: the entry `util.Cache` holds for a key. -/
def Cache.find (c : Cache) (key : String) : Option CacheEntry :=
  c.entries.lookup key

/-- Modelled from the spec: `util.Cache` stores an entry for a key, in place
of the one it held. -/
def Cache.store (c : Cache) (key : String) (e : CacheEntry) : Cache :=
  { c with entries := (key, e) :: c.entries.filter (fun p => p.1 != key) }

/-- Modelled from the spec: on a missing or stale entry `util.Cache` invokes
the compute function and stores its result, success or failure, with a fresh
timestamp; failures get the failure TTL. -/
def Cache.compute (c : Cache) (w : World) (key : String) (getter : Getter) :
    GoResult × Cache × World :=
  match getter w with
  | (r, w1) =>
    let ttl := match r.2 with
      | none => c.ttl
      | some _ => c.failureTtl
    (r, c.store key { value := r, computedAt := w1.now, ttl := ttl }, w1)

/-- Modelled from the spec: `(*util.Cache).Get` (GetOrCompute of
MemoizingCache), whose code is not among the sources: a fresh entry is
returned without invoking the compute function, otherwise the result is
computed and stored. -/
def Cache.Get : CacheGet Cache := fun c w key getter =>
  match c.find key with
  | some e => if e.fresh w.now then (e.value, c, w) else c.compute w key getter
  | none => c.compute w key getter

/-- Modelled from the spec: `util.NewCache`, whose code is not among the
sources: an empty cache.  The caller passes one duration, which this model
gives to the entries of both kinds; a separately configured failure TTL is
another value of the field `failureTtl`. -/
def NewCache (cacheTTL : Nat) : Cache :=
  { ttl := cacheTTL, failureTtl := cacheTTL, entries := [] }

/-- The constructor `NewRemoteRegistry`. -/
def NewRemoteRegistry (imageAuthMap : List (String × Keychain)) (cacheTTL : Nat) :
    RemoteRegistryDocker Cache :=
  { imageAuthMap := imageAuthMap, cache := NewCache cacheTTL }

/-! ## The Google Chat card (`googlechat.go`) -/

namespace chat

/-- The struct `chat.GoogleAppsCardV1TextParagraph`, with the field the
logger sets. -/
structure GoogleAppsCardV1TextParagraph where
  Text : String
  deriving DecidableEq, Repr

/-- The struct `chat.GoogleAppsCardV1Widgets`, a widget inside a column. -/
structure GoogleAppsCardV1Widgets where
  TextParagraph : Option GoogleAppsCardV1TextParagraph
  deriving DecidableEq, Repr

/-- The struct `chat.GoogleAppsCardV1Column`. -/
structure GoogleAppsCardV1Column where
  Widgets : List GoogleAppsCardV1Widgets
  deriving DecidableEq, Repr

/-- The struct `chat.GoogleAppsCardV1Columns`. -/
structure GoogleAppsCardV1Columns where
  ColumnItems : List GoogleAppsCardV1Column
  deriving DecidableEq, Repr

/-- The struct `chat.GoogleAppsCardV1Widget`; a pointer field left unset is
`none`. -/
structure GoogleAppsCardV1Widget where
  TextParagraph : Option GoogleAppsCardV1TextParagraph
  Columns : Option GoogleAppsCardV1Columns
  deriving DecidableEq, Repr

/-- The struct `chat.GoogleAppsCardV1Section`. -/
structure GoogleAppsCardV1Section where
  Collapsible : Bool
  Widgets : List GoogleAppsCardV1Widget
  deriving DecidableEq, Repr

/-- The struct `chat.GoogleAppsCardV1Card`. -/
structure GoogleAppsCardV1Card where
  Sections : List GoogleAppsCardV1Section
  deriving DecidableEq, Repr

/-- The struct `chat.CardWithId`. -/
structure CardWithId where
  Card : GoogleAppsCardV1Card
  CardId : String
  deriving DecidableEq, Repr

/-- The struct `chat.Message`. -/
structure Message where
  CardsV2 : List CardWithId
  deriving DecidableEq, Repr

end chat

open chat in
/-- The closure `toChatColumn` of `googleChatBackend.start`. -/
def toChatColumn (columnName value : String) : GoogleAppsCardV1Column :=
  { Widgets := [ { TextParagraph := some { Text := columnName } },
                 { TextParagraph := some { Text := value } } ] }

open chat in
/-- The widget `toChatMsg` puts first in the section: the message text. -/
def textWidget (msg : String) : GoogleAppsCardV1Widget :=
  { TextParagraph := some { Text := msg }, Columns := none }

open chat in
/-- The widget `toChatMsg` appends for a column that opens a new row. -/
def columnsWidget (items : List GoogleAppsCardV1Column) : GoogleAppsCardV1Widget :=
  { TextParagraph := none, Columns := some { ColumnItems := items } }

open chat in
/-- One pass of the `for _, column := range columns` loop of `toChatMsg` on
the widgets of the first section; `none` is the index-out-of-range panic of
`Widgets[len(widgets)-1]` on an empty list. -/
def addColumn (widgets : List GoogleAppsCardV1Widget) (column : String × String) :
    Option (List GoogleAppsCardV1Widget) :=
  match widgets.getLast? with
  | none => none
  | some lastWidget =>
    match lastWidget.Columns with
    | none => some (widgets ++ [columnsWidget [toChatColumn column.1 column.2]])
    | some cols =>
      if cols.ColumnItems.length ≥ 2 then
        some (widgets ++ [columnsWidget [toChatColumn column.1 column.2]])
      else
        some (widgets.dropLast ++
          [{ lastWidget with
              Columns := some { ColumnItems :=
                cols.ColumnItems ++ [toChatColumn column.1 column.2] } }])

open chat in
/-- The whole loop of `toChatMsg` over `columns`. -/
def addColumns (widgets : List GoogleAppsCardV1Widget) :
    List (String × String) → Option (List GoogleAppsCardV1Widget)
  | [] => some widgets
  | column :: rest =>
    match addColumn widgets column with
    | none => none
    | some widgets1 => addColumns widgets1 rest

open chat in
/-- The closure `toChatMsg` of `googleChatBackend.start`; a column
`[2]string` is a pair. -/
def toChatMsg (msg : String) (columns : List (String × String)) : Option Message :=
  match addColumns [textWidget msg] columns with
  | none => none
  | some widgets =>
    some { CardsV2 := [ { Card := { Sections := [ { Collapsible := false,
                                                    Widgets := widgets } ] },
                          CardId := "card1" } ] }

/-- The column items of a widget, none for a widget without columns. -/
def columnItems (w : chat.GoogleAppsCardV1Widget) : List chat.GoogleAppsCardV1Column :=
  match w.Columns with
  | none => []
  | some cols => cols.ColumnItems

/-- The rows the specification words describe: the columns taken two by two,
in order, a last single one when their number is odd. -/
def rowsOfTwo {α : Type} : List α → List (List α)
  | [] => []
  | [a] => [[a]]
  | a :: b :: rest => [a, b] :: rowsOfTwo rest

/-- The widget that holds a row of columns, each column as `toChatColumn`
builds it. -/
def rowWidget (row : List (String × String)) : chat.GoogleAppsCardV1Widget :=
  columnsWidget (row.map (fun c => toChatColumn c.1 c.2))

/-- A widget list to which the loop of `toChatMsg` appends a new widget: it
is not empty and its last widget has no columns or at least two. -/
def lastClosed (widgets : List chat.GoogleAppsCardV1Widget) : Bool :=
  match widgets.getLast? with
  | none => false
  | some last =>
    match last.Columns with
    | none => true
    | some cols => decide (2 ≤ cols.ColumnItems.length)

/-! ## Auxiliary notions for the statements -/

/-- Modelled from the spec: `util.Cache` holds a fresh entry for the key. -/
def Cache.isFresh (c : Cache) (now : Nat) (key : String) : Bool :=
  match c.find key with
  | some e => e.fresh now
  | none => false

/-- The name `GetImageString` parses before it consults the cache is well
formed: the repository for a wildcard, the reference `url:tag` otherwise. -/
def parses (E : Env) (url tag : String) : Bool :=
  if Contains tag "*" then
    match E.NewRepository url with
    | .ok _ => true
    | .error _ => false
  else
    match E.ParseReference (url ++ ":" ++ tag) with
    | .ok _ => true
    | .error _ => false

/-- What `getImageDigestHash` returns for the pair `cache.Get` yielded. -/
def digestOutcome (url : String) (r : GoResult) : Outcome :=
  match r.1.assertString with
  | some s => .returned (url ++ "@" ++ s) r.2
  | none => .panicked

/-- What `getImageHighestVersionTag` returns for the pair `cache.Get`
yielded. -/
def tagOutcome (url : String) (r : GoResult) : Outcome :=
  match r with
  | (_, some err) => .returned "" (some err)
  | (target, none) =>
    match target.assertString with
    | some s => .returned (url ++ ":" ++ s) none
    | none => .panicked

/-- Two resolutions of the same image by `GetImageString`: the second is made
at time `t2`, on the cache and the transport record the first one left. -/
def resolveTwice (E : Env) (d : RemoteRegistryDocker Cache) (w : World)
    (url tag : String) (t2 : Nat) : Resolution Cache × Resolution Cache :=
  let r1 := GetImageString E Cache.Get d w url tag
  (r1, GetImageString E Cache.Get { d with cache := r1.cache }
        { r1.world with now := t2 } url tag)

/-! ## Sample data -/

/-- A configured keychain, `credA` of the routing example. -/
def credA : Keychain := Keychain.configured "credA"

/-- A configured keychain, `credB` of the routing example. -/
def credB : Keychain := Keychain.configured "credB"

/-- The rules of the routing example, in configured order. -/
def sampleRules : List (String × Keychain) :=
  [("docker.io/lib", credA), ("docker.io", credB)]

/-- The same entries in the opposite order, one of the orders in which a
`range` over the map may visit them. -/
def sampleRulesReversed : List (String × Keychain) :=
  [("docker.io", credB), ("docker.io/lib", credA)]

/-- A sample of the collaborators: a name with a blank does not parse; the
registry holds the image `repo:1.2.3` and an image `repo:broken` whose
manifest has no digest, and lists the tags `1.0` and `1.5` of `repo`; the
version selector answers `1.5` for that list and the pattern `1.*` and finds
no match otherwise. -/
def sampleEnv : Env where
  ParseReference := fun s =>
    if Contains s " " then .error { msg := "could not parse reference" }
    else .ok { name := s }
  NewRepository := fun s =>
    if Contains s " " then .error { msg := "repository can only contain valid characters" }
    else .ok { name := s }
  remoteImage := fun _ ref _ =>
    if ref.name = "repo:1.2.3" then .ok { manifest := "manifest-of-1.2.3" }
    else if ref.name = "repo:broken" then .ok { manifest := "corrupt" }
    else .error { msg := "MANIFEST_UNKNOWN" }
  Digest := fun img =>
    if img.manifest = "corrupt" then .error { msg := "manifest has no digest" }
    else .ok "sha256:0a1b"
  remoteList := fun _ repo _ =>
    if repo.name = "repo" then .ok ["1.0", "1.5"]
    else .error { msg := "NAME_UNKNOWN" }
  GetHighestVersionWithFilter := fun tags pattern =>
    if tags = ["1.0", "1.5"] ∧ pattern = "1.*" then .ok "1.5"
    else .error { msg := "no matching tag" }

/-- A resolver with the routing example as credential map and an empty cache
whose entries live for 60. -/
def sampleRegistry : RemoteRegistryDocker Cache :=
  { imageAuthMap := sampleRules,
    cache := { ttl := 60, failureTtl := 60, entries := [] } }

/-- A world at time 100 in which the transport has not been called. -/
def sampleWorld : World := { now := 100, calls := [] }

/-- The columns `googleChatBackend.start` passes to `toChatMsg` for a message
of level `info` logged at `main.go:10` with the prefix `prod`. -/
def sampleColumns : List (String × String) :=
  [("Level", "info"), ("Env", "prod"), ("File", "main.go:10")]

/-! ## Strings -/

theorem tails_any_star (l : List Char) :
    l.tails.any (fun t => ['*'].isPrefixOf t) = true ↔ '*' ∈ l := by
  induction l with
  | nil => simp [List.isPrefixOf]
  | cons c t ih =>
    rw [List.tails, List.any_cons, Bool.or_eq_true, ih]
    simp [List.isPrefixOf]

theorem Contains_star_iff (s : String) : Contains s "*" = true ↔ '*' ∈ s.data := by
  unfold Contains
  exact tails_any_star s.data

theorem Contains_star_false_iff (s : String) : Contains s "*" = false ↔ '*' ∉ s.data := by
  rw [← Contains_star_iff]
  simp

theorem HasPrefix_iff (s pre : String) : HasPrefix s pre = true ↔ pre.data <+: s.data := by
  unfold HasPrefix
  exact List.isPrefixOf_iff_prefix

/-! ## Credential routing -/

theorem getAuthKeyChain_append_of_no_match (pre rest : List (String × Keychain))
    (url : String) (h : ∀ p ∈ pre, HasPrefix url p.1 = false) :
    getAuthKeyChain (pre ++ rest) url = getAuthKeyChain rest url := by
  induction pre with
  | nil => rfl
  | cons p pre ih =>
    obtain ⟨key, value⟩ := p
    have hk : HasPrefix url key = false := h (key, value) (List.mem_cons_self _ _)
    have ht : ∀ q ∈ pre, HasPrefix url q.1 = false :=
      fun q hq => h q (List.mem_cons_of_mem _ hq)
    simp [getAuthKeyChain, hk, ih ht]

theorem getAuthKeyChain_cases (imageAuthMap : List (String × Keychain)) (url : String) :
    (∃ p ∈ imageAuthMap, HasPrefix url p.1 = true ∧
        getAuthKeyChain imageAuthMap url = p.2) ∨
    (getAuthKeyChain imageAuthMap url = Keychain.DefaultKeychain ∧
        ∀ p ∈ imageAuthMap, HasPrefix url p.1 = false) := by
  induction imageAuthMap with
  | nil => exact Or.inr ⟨rfl, fun p hp => absurd hp (List.not_mem_nil p)⟩
  | cons p rest ih =>
    obtain ⟨key, value⟩ := p
    cases hk : HasPrefix url key with
    | true =>
      exact Or.inl ⟨(key, value), List.mem_cons_self _ _, hk, by simp [getAuthKeyChain, hk]⟩
    | false =>
      have hstep : getAuthKeyChain ((key, value) :: rest) url = getAuthKeyChain rest url := by
        simp [getAuthKeyChain, hk]
      rcases ih with ⟨q, hq, hqk, hqv⟩ | ⟨hdef, hnone⟩
      · exact Or.inl ⟨q, List.mem_cons_of_mem _ hq, hqk, hstep.trans hqv⟩
      · refine Or.inr ⟨hstep.trans hdef, ?_⟩
        intro q hq
        rcases List.mem_cons.mp hq with rfl | hq
        · exact hk
        · exact hnone q hq

/-- Claim C5, amended: `getAuthKeyChain` returns the keychain of the first
entry, in the order in which the `range` loop visits the map, whose key is a
prefix of the url: it computes the first-match rule of the specification on
the iteration order, which Go leaves unspecified and which need not be the
configured order. -/
theorem getAuthKeyChain_first_in_iteration_order (it : List (String × Keychain))
    (url : String) :
    getAuthKeyChain it url = firstConfiguredRule it url ∧
    ∀ (pre post : List (String × Keychain)) (key : String) (value : Keychain),
      it = pre ++ (key, value) :: post →
      (∀ p ∈ pre, HasPrefix url p.1 = false) →
      HasPrefix url key = true →
      getAuthKeyChain it url = value := by
  constructor
  · induction it with
    | nil => rfl
    | cons p rest ih =>
      obtain ⟨key, value⟩ := p
      cases hk : HasPrefix url key with
      | true => simp [getAuthKeyChain, firstConfiguredRule, List.find?, hk]
      | false =>
        have h1 : getAuthKeyChain ((key, value) :: rest) url = getAuthKeyChain rest url := by
          simp [getAuthKeyChain, hk]
        have h2 : firstConfiguredRule ((key, value) :: rest) url =
            firstConfiguredRule rest url := by
          simp [firstConfiguredRule, List.find?, hk]
        rw [h1, h2, ih]
  · intro pre post key value hit hpre hkey
    subst hit
    rw [getAuthKeyChain_append_of_no_match pre _ url hpre]
    simp [getAuthKeyChain, hkey]

/-- Witness of `getAuthKeyChain_first_in_iteration_order` on the routing
example visited in configured order. -/
theorem getAuthKeyChain_first_in_iteration_order_witness :
    getAuthKeyChain sampleRules "docker.io/lib/nginx" = credA :=
  (getAuthKeyChain_first_in_iteration_order sampleRules "docker.io/lib/nginx").2
    [] [("docker.io", credB)] "docker.io/lib" credA rfl (by decide) (by decide)

/-- Claim C5 as stated fails: the routing example, visited by `range` in the
opposite order, yields `credB`, though the first rule in configured order
whose prefix matches holds `credA`. -/
theorem getAuthKeyChain_configured_order_counterexample :
    sampleRulesReversed.Perm sampleRules ∧
    (sampleRules.map Prod.fst).Nodup ∧
    firstConfiguredRule sampleRules "docker.io/lib/nginx" = credA ∧
    getAuthKeyChain sampleRulesReversed "docker.io/lib/nginx" = credB ∧
    getAuthKeyChain sampleRulesReversed "docker.io/lib/nginx" ≠
      firstConfiguredRule sampleRules "docker.io/lib/nginx" := by
  refine ⟨List.Perm.swap _ _ _, by decide, by decide, by decide, by decide⟩

/-- Claim C6: when no key of the credential map is a prefix of the url, the
empty map included, `getAuthKeyChain` returns `authn.DefaultKeychain`. -/
theorem getAuthKeyChain_default (imageAuthMap : List (String × Keychain)) (url : String)
    (h : ∀ p ∈ imageAuthMap, HasPrefix url p.1 = false) :
    getAuthKeyChain imageAuthMap url = Keychain.DefaultKeychain := by
  have := getAuthKeyChain_append_of_no_match imageAuthMap [] url h
  simpa [getAuthKeyChain] using this

/-- Witness of `getAuthKeyChain_default`: no rule of the routing example
matches a quay.io repository. -/
theorem getAuthKeyChain_default_witness :
    (∀ p ∈ sampleRules, HasPrefix "quay.io/coreos/etcd" p.1 = false) ∧
    getAuthKeyChain sampleRules "quay.io/coreos/etcd" = Keychain.DefaultKeychain :=
  ⟨by decide, getAuthKeyChain_default sampleRules "quay.io/coreos/etcd" (by decide)⟩

/-- Claim C9: whatever the order in which the map is visited, the keychain
`getAuthKeyChain` returns is the value stored under a key that is a prefix of
the url, or it is the default keychain and then no key is a prefix of the url;
hence, when exactly one key of the map is a prefix of the url, the keychain
stored under that key is returned under every iteration order. -/
theorem getAuthKeyChain_sound (imageAuthMap : List (String × Keychain)) (url : String) :
    ((∃ p ∈ imageAuthMap, HasPrefix url p.1 = true ∧
          getAuthKeyChain imageAuthMap url = p.2) ∨
      (getAuthKeyChain imageAuthMap url = Keychain.DefaultKeychain ∧
          ∀ p ∈ imageAuthMap, HasPrefix url p.1 = false)) ∧
    ∀ (key : String) (value : Keychain),
      (imageAuthMap.map Prod.fst).Nodup →
      (key, value) ∈ imageAuthMap →
      HasPrefix url key = true →
      (∀ p ∈ imageAuthMap, HasPrefix url p.1 = true → p.1 = key) →
      ∀ it : List (String × Keychain), it.Perm imageAuthMap →
        getAuthKeyChain it url = value := by
  refine ⟨getAuthKeyChain_cases imageAuthMap url, ?_⟩
  intro key value hnodup hmem hkey huniq it hperm
  rcases getAuthKeyChain_cases it url with ⟨q, hq, hqk, hqv⟩ | ⟨_, hnone⟩
  · have hq' : q ∈ imageAuthMap := hperm.mem_iff.mp hq
    have hfst : q.1 = (key, value).1 := huniq q hq' hqk
    have hqe : q = (key, value) := List.inj_on_of_nodup_map hnodup hq' hmem hfst
    rw [hqv, hqe]
  · have := hnone (key, value) (hperm.mem_iff.mpr hmem)
    simp [hkey] at this

/-- Witness of `getAuthKeyChain_sound`: only the key `docker.io` of the
routing example is a prefix of `docker.io/nginx`, and `credB` is returned
when the map is visited in the opposite order. -/
theorem getAuthKeyChain_sound_witness :
    getAuthKeyChain sampleRulesReversed "docker.io/nginx" = credB :=
  (getAuthKeyChain_sound sampleRules "docker.io/nginx").2 "docker.io" credB
    (by decide) (by decide) (by decide) (by decide) sampleRulesReversed
    (List.Perm.swap _ _ _)

/-! ## Cache keys -/

theorem cacheKey_of_wildcard (url tag : String) (h : Contains tag "*" = true) :
    cacheKey url tag = url ++ "___" ++ tag := by
  simp [cacheKey, h]

theorem cacheKey_of_exact (url tag : String) (h : Contains tag "*" = false) :
    cacheKey url tag = url ++ ":" ++ tag := by
  simp [cacheKey, h]

/-- The only key under which `GetImageString` consults the cache is
`cacheKey url tag`. -/
theorem GetImageString_congr_cacheKey {σ : Type} (E : Env) (Get Get' : CacheGet σ)
    (d : RemoteRegistryDocker σ) (w : World) (url tag : String)
    (h : ∀ g, Get d.cache w (cacheKey url tag) g = Get' d.cache w (cacheKey url tag) g) :
    GetImageString E Get d w url tag = GetImageString E Get' d w url tag := by
  unfold GetImageString
  cases hc : Contains tag "*" with
  | true =>
    rw [cacheKey_of_wildcard url tag hc] at h
    simp only [if_true, getImageHighestVersionTag]
    cases E.NewRepository url with
    | error e => rfl
    | ok repo => simp only [h]
  | false =>
    rw [cacheKey_of_exact url tag hc] at h
    simp only [Bool.false_eq_true, if_false, getImageDigestHash]
    cases E.ParseReference (url ++ ":" ++ tag) with
    | error e => rfl
    | ok ref => simp only [h]

/-- Claim C7 as stated fails: the wildcard key of `ab` with the pattern
`*.io/repo:1` and the exact-tag key of `ab___*.io/repo` with the tag `1` are
the same string. -/
theorem cacheKey_collision_counterexample :
    Contains "*.io/repo:1" "*" = true ∧
    Contains "1" "*" = false ∧
    cacheKey "ab" "*.io/repo:1" = "ab" ++ "___" ++ "*.io/repo:1" ∧
    cacheKey "ab___*.io/repo" "1" = "ab___*.io/repo" ++ ":" ++ "1" ∧
    cacheKey "ab" "*.io/repo:1" = cacheKey "ab___*.io/repo" "1" := by
  decide

/-- Claim C7, amended: a wildcard cache key `url ++ "___" ++ tagSpec` and an
exact-tag cache key `url' ++ ":" ++ tag` are different strings whenever the
url of the exact-tag key contains no `*`, or the two urls are the same. -/
theorem cacheKey_wildcard_ne_exact (url url' tagSpec tag : String)
    (hw : Contains tagSpec "*" = true) (he : Contains tag "*" = false)
    (hu : Contains url' "*" = false ∨ url' = url) :
    cacheKey url tagSpec = url ++ "___" ++ tagSpec ∧
    cacheKey url' tag = url' ++ ":" ++ tag ∧
    cacheKey url tagSpec ≠ cacheKey url' tag := by
  refine ⟨cacheKey_of_wildcard url tagSpec hw, cacheKey_of_exact url' tag he, ?_⟩
  rw [cacheKey_of_wildcard url tagSpec hw, cacheKey_of_exact url' tag he]
  intro hkey
  have hdata : url.data ++ ("___".data ++ tagSpec.data) =
      url'.data ++ (":".data ++ tag.data) := by
    have := congrArg String.data hkey
    simpa [String.data_append, List.append_assoc] using this
  rcases hu with hu | hu
  · have hstar : '*' ∈ url'.data ++ (":".data ++ tag.data) := by
      rw [← hdata]
      exact List.mem_append_right _
        (List.mem_append_right _ ((Contains_star_iff tagSpec).mp hw))
    rcases List.mem_append.mp hstar with h1 | h2
    · exact (Contains_star_false_iff url').mp hu h1
    · rcases List.mem_append.mp h2 with h3 | h4
      · simp at h3
      · exact (Contains_star_false_iff tag).mp he h4
  · subst hu
    have hrest := List.append_cancel_left hdata
    simp at hrest

/-- Witness of `cacheKey_wildcard_ne_exact`: the keys of `repo` with the
pattern `1.*` and of `repo` with the tag `1.2.3`. -/
theorem cacheKey_wildcard_ne_exact_witness :
    cacheKey "repo" "1.*" ≠ cacheKey "repo" "1.2.3" :=
  (cacheKey_wildcard_ne_exact "repo" "repo" "1.*" "1.2.3"
    (by decide) (by decide) (Or.inl (by decide))).2.2

/-! ## The getters handed to the cache -/

theorem digestGetter_success (E : Env) (ref : Reference) (kc : Keychain) (u w1 : World)
    (v : GoValue) (h : digestGetter E ref kc u = ((v, none), w1)) :
    ∃ img digest, E.remoteImage u ref kc = .ok img ∧ E.Digest img = .ok digest ∧
      v = GoValue.str digest := by
  unfold digestGetter at h
  cases hi : E.remoteImage u ref kc with
  | error e => simp [hi] at h
  | ok img =>
    cases hd : E.Digest img with
    | error e => simp [hi, hd] at h
    | ok digest =>
      simp only [hi, hd, Prod.mk.injEq] at h
      exact ⟨img, digest, rfl, hd, h.1.1.symm⟩

theorem digestGetter_error (E : Env) (ref : Reference) (kc : Keychain) (u : World)
    (e : GoError)
    (h : E.remoteImage u ref kc = .error e ∨
      ∃ img, E.remoteImage u ref kc = .ok img ∧ E.Digest img = .error e) :
    (digestGetter E ref kc u).1 = (GoValue.str "", some e) := by
  rcases h with h | ⟨img, hi, hd⟩
  · simp [digestGetter, h]
  · simp [digestGetter, hi, hd]

theorem digestGetter_is_string (E : Env) (ref : Reference) (kc : Keychain) (u : World) :
    ∃ s, (digestGetter E ref kc u).1.1 = GoValue.str s := by
  cases hi : E.remoteImage u ref kc with
  | error e => exact ⟨"", by simp [digestGetter, hi]⟩
  | ok img =>
    cases hd : E.Digest img with
    | error e => exact ⟨"", by simp [digestGetter, hi, hd]⟩
    | ok digest => exact ⟨digest, by simp [digestGetter, hi, hd]⟩

theorem digestGetter_calls (E : Env) (ref : Reference) (kc : Keychain) (u : World) :
    (digestGetter E ref kc u).2 =
      { u with calls := u.calls ++ [TransportCall.image ref kc] } := by
  cases hi : E.remoteImage u ref kc with
  | error e => simp [digestGetter, hi]
  | ok img =>
    cases hd : E.Digest img with
    | error e => simp [digestGetter, hi, hd]
    | ok digest => simp [digestGetter, hi, hd]

theorem tagGetter_success (E : Env) (repo : Repository) (kc : Keychain) (tag : String)
    (u : World) (tags : List String) (t : String)
    (hlist : E.remoteList u repo kc = .ok tags)
    (hsel : E.GetHighestVersionWithFilter tags tag = .ok t) :
    tagGetter E repo kc tag u =
      ((GoValue.str t, none),
        { u with calls := u.calls ++ [TransportCall.list repo kc] }) := by
  simp [tagGetter, hlist, hsel]

theorem tagGetter_error (E : Env) (repo : Repository) (kc : Keychain) (tag : String)
    (u : World) (e : GoError)
    (h : E.remoteList u repo kc = .error e ∨
      ∃ tags, E.remoteList u repo kc = .ok tags ∧
        E.GetHighestVersionWithFilter tags tag = .error e) :
    (tagGetter E repo kc tag u).1 = (GoValue.str "", some e) := by
  rcases h with h | ⟨tags, hl, hs⟩
  · simp [tagGetter, h]
  · simp [tagGetter, hl, hs]

theorem tagGetter_is_string (E : Env) (repo : Repository) (kc : Keychain) (tag : String)
    (u : World) : ∃ s, (tagGetter E repo kc tag u).1.1 = GoValue.str s := by
  cases hl : E.remoteList u repo kc with
  | error e => exact ⟨"", by simp [tagGetter, hl]⟩
  | ok tags =>
    cases hs : E.GetHighestVersionWithFilter tags tag with
    | error e => exact ⟨"", by simp [tagGetter, hl, hs]⟩
    | ok t => exact ⟨t, by simp [tagGetter, hl, hs]⟩

theorem tagGetter_calls (E : Env) (repo : Repository) (kc : Keychain) (tag : String)
    (u : World) :
    (tagGetter E repo kc tag u).2 =
      { u with calls := u.calls ++ [TransportCall.list repo kc] } := by
  cases hl : E.remoteList u repo kc with
  | error e => simp [tagGetter, hl]
  | ok tags =>
    cases hs : E.GetHighestVersionWithFilter tags tag with
    | error e => simp [tagGetter, hl, hs]
    | ok t => simp [tagGetter, hl, hs]

/-! ## The resolver -/

theorem getImageDigestHash_of_get {σ : Type} (E : Env) (Get : CacheGet σ)
    (d : RemoteRegistryDocker σ) (w : World) (url tag : String) (ref : Reference)
    (s : String) (err : Option GoError) (cache1 : σ) (w1 : World)
    (hparse : E.ParseReference (url ++ ":" ++ tag) = .ok ref)
    (hget : Get d.cache w (url ++ ":" ++ tag)
        (digestGetter E ref (getAuthKeyChain d.imageAuthMap url)) =
      ((GoValue.str s, err), cache1, w1)) :
    getImageDigestHash E Get d w url tag =
      { out := .returned (url ++ "@" ++ s) err, cache := cache1, world := w1 } := by
  simp [getImageDigestHash, hparse, hget, GoValue.assertString]

theorem GetImageString_of_exact {σ : Type} (E : Env) (Get : CacheGet σ)
    (d : RemoteRegistryDocker σ) (w : World) (url tag : String)
    (htag : Contains tag "*" = false) :
    GetImageString E Get d w url tag = getImageDigestHash E Get d w url tag := by
  simp [GetImageString, htag]

theorem GetImageString_of_wildcard {σ : Type} (E : Env) (Get : CacheGet σ)
    (d : RemoteRegistryDocker σ) (w : World) (url tag : String)
    (htag : Contains tag "*" = true) :
    GetImageString E Get d w url tag = getImageHighestVersionTag E Get d w url tag := by
  simp [GetImageString, htag]

/-- Claim C1: for a tag without `*`, when `url:tag` parses and the cached
digest lookup yields the digest string `digest` with a nil error,
`GetImageString` returns exactly `url ++ "@" ++ digest` with a nil error; a
digest that starts with `sha256:` gives a reference whose pinned part starts
with `@sha256:`; and the getter handed to the cache yields a success value
only as the digest string of the transport, verbatim. -/
theorem GetImageString_exact_tag {σ : Type} (E : Env) (Get : CacheGet σ)
    (d : RemoteRegistryDocker σ) (w : World) (url tag : String) (ref : Reference)
    (digest : String) (cache1 : σ) (w1 : World)
    (htag : Contains tag "*" = false)
    (hparse : E.ParseReference (url ++ ":" ++ tag) = .ok ref)
    (hget : Get d.cache w (url ++ ":" ++ tag)
        (digestGetter E ref (getAuthKeyChain d.imageAuthMap url)) =
      ((GoValue.str digest, none), cache1, w1)) :
    GetImageString E Get d w url tag =
      { out := .returned (url ++ "@" ++ digest) none, cache := cache1, world := w1 } ∧
    (∀ rest, digest = "sha256:" ++ rest →
      (GetImageString E Get d w url tag).out =
        .returned (url ++ "@sha256:" ++ rest) none) ∧
    (∀ (u u1 : World) (v : GoValue),
      digestGetter E ref (getAuthKeyChain d.imageAuthMap url) u = ((v, none), u1) →
      ∃ img dg, E.remoteImage u ref (getAuthKeyChain d.imageAuthMap url) = .ok img ∧
        E.Digest img = .ok dg ∧ v = GoValue.str dg) := by
  have hmain : GetImageString E Get d w url tag =
      { out := .returned (url ++ "@" ++ digest) none, cache := cache1, world := w1 } := by
    rw [GetImageString_of_exact E Get d w url tag htag]
    exact getImageDigestHash_of_get E Get d w url tag ref digest none cache1 w1 hparse hget
  refine ⟨hmain, ?_, ?_⟩
  · intro rest hrest
    rw [hmain, hrest]
    have : url ++ "@" ++ ("sha256:" ++ rest) = url ++ "@sha256:" ++ rest := by
      apply String.ext
      simp [String.data_append, List.append_assoc]
    simp [this]
  · intro u u1 v hg
    exact digestGetter_success E ref _ u u1 v hg

/-- Witness of `GetImageString_exact_tag`: the sample registry resolves
`repo` with the tag `1.2.3` to the digest the transport reports. -/
theorem GetImageString_exact_tag_witness :
    (GetImageString sampleEnv Cache.Get sampleRegistry sampleWorld "repo" "1.2.3").out =
      .returned ("repo" ++ "@sha256:" ++ "0a1b") none :=
  (GetImageString_exact_tag sampleEnv Cache.Get sampleRegistry sampleWorld "repo" "1.2.3"
    { name := "repo:1.2.3" } "sha256:0a1b"
    (Cache.Get sampleRegistry.cache sampleWorld ("repo" ++ ":" ++ "1.2.3")
      (digestGetter sampleEnv { name := "repo:1.2.3" }
        (getAuthKeyChain sampleRegistry.imageAuthMap "repo"))).2.1
    (Cache.Get sampleRegistry.cache sampleWorld ("repo" ++ ":" ++ "1.2.3")
      (digestGetter sampleEnv { name := "repo:1.2.3" }
        (getAuthKeyChain sampleRegistry.imageAuthMap "repo"))).2.2
    (by decide) rfl (by decide)).2.1 "0a1b" (by decide)

/-- Claim C2: for a tag specification that contains `*`, when the repository
url parses, the tag listing succeeds, the version selector returns the tag
`t` for that list and pattern, and the cache hands back the result of that
computation, `GetImageString` returns exactly `url ++ ":" ++ t` with a nil
error, after one call of the tag listing. -/
theorem GetImageString_wildcard {σ : Type} (E : Env) (Get : CacheGet σ)
    (d : RemoteRegistryDocker σ) (w : World) (url tag : String) (repo : Repository)
    (tags : List String) (t : String) (cache1 : σ)
    (htag : Contains tag "*" = true)
    (hrepo : E.NewRepository url = .ok repo)
    (hlist : E.remoteList w repo (getAuthKeyChain d.imageAuthMap url) = .ok tags)
    (hsel : E.GetHighestVersionWithFilter tags tag = .ok t)
    (hget : Get d.cache w (url ++ "___" ++ tag)
        (tagGetter E repo (getAuthKeyChain d.imageAuthMap url) tag) =
      ((tagGetter E repo (getAuthKeyChain d.imageAuthMap url) tag w).1, cache1,
        (tagGetter E repo (getAuthKeyChain d.imageAuthMap url) tag w).2)) :
    GetImageString E Get d w url tag =
      { out := .returned (url ++ ":" ++ t) none,
        cache := cache1,
        world := { w with calls := w.calls ++
          [TransportCall.list repo (getAuthKeyChain d.imageAuthMap url)] } } := by
  rw [tagGetter_success E repo _ tag w tags t hlist hsel] at hget
  rw [GetImageString_of_wildcard E Get d w url tag htag]
  simp [getImageHighestVersionTag, hrepo, hget, GoValue.assertString]

/-- Witness of `GetImageString_wildcard`: with the tag list `1.0`, `1.5` the
sample registry resolves `repo` with the pattern `1.*` to `repo:1.5`. -/
theorem GetImageString_wildcard_witness :
    (GetImageString sampleEnv Cache.Get sampleRegistry sampleWorld "repo" "1.*").out =
      .returned ("repo" ++ ":" ++ "1.5") none :=
  congrArg Resolution.out
    (GetImageString_wildcard sampleEnv Cache.Get sampleRegistry sampleWorld "repo" "1.*"
      { name := "repo" } ["1.0", "1.5"] "1.5"
      (Cache.Get sampleRegistry.cache sampleWorld ("repo" ++ "___" ++ "1.*")
        (tagGetter sampleEnv { name := "repo" }
          (getAuthKeyChain sampleRegistry.imageAuthMap "repo") "1.*")).2.1
      (by decide) rfl rfl rfl (by decide))

/-- Claim C3 fails on the exact-tag path: when the digest fetch of the sample
registry fails, `GetImageString` returns the non-empty string `repo@` together
with the error, where the wildcard path returns the empty string. -/
theorem GetImageString_partial_result_on_error :
    (GetImageString sampleEnv Cache.Get sampleRegistry sampleWorld "repo" "9.9.9").out =
      .returned "repo@" (some { msg := "MANIFEST_UNKNOWN" }) ∧
    (GetImageString sampleEnv Cache.Get sampleRegistry sampleWorld "other" "1.*").out =
      .returned "" (some { msg := "NAME_UNKNOWN" }) := by
  decide

/-- Claim C4: no error is swallowed.  A reference or repository that does not
parse makes `GetImageString` return that parse error, with the cache and the
world untouched.  When the cache hands back what the cached computation
yields, an error `e` of `remote.Image` or of `img.Digest` on the exact-tag
path, and an error `e` of `remote.List` or of the version selector on the
wildcard path, makes `GetImageString` return `e`; on the wildcard path every
error `cache.Get` returns is returned.  In each case the cache and the world
are left as the single `cache.Get` call left them: the failed step is not
retried. -/
theorem GetImageString_returns_error {σ : Type} (E : Env) (Get : CacheGet σ)
    (d : RemoteRegistryDocker σ) (w : World) (url tag : String) :
    (∀ e, Contains tag "*" = false →
      E.ParseReference (url ++ ":" ++ tag) = .error e →
      GetImageString E Get d w url tag =
        { out := .returned "" (some e), cache := d.cache, world := w }) ∧
    (∀ e, Contains tag "*" = true →
      E.NewRepository url = .error e →
      GetImageString E Get d w url tag =
        { out := .returned "" (some e), cache := d.cache, world := w }) ∧
    (∀ ref u e cache1 w1, Contains tag "*" = false →
      E.ParseReference (url ++ ":" ++ tag) = .ok ref →
      Get d.cache w (url ++ ":" ++ tag)
          (digestGetter E ref (getAuthKeyChain d.imageAuthMap url)) =
        ((digestGetter E ref (getAuthKeyChain d.imageAuthMap url) u).1, cache1, w1) →
      (E.remoteImage u ref (getAuthKeyChain d.imageAuthMap url) = .error e ∨
        ∃ img, E.remoteImage u ref (getAuthKeyChain d.imageAuthMap url) = .ok img ∧
          E.Digest img = .error e) →
      GetImageString E Get d w url tag =
        { out := .returned (url ++ "@" ++ "") (some e), cache := cache1, world := w1 }) ∧
    (∀ repo u e cache1 w1, Contains tag "*" = true →
      E.NewRepository url = .ok repo →
      Get d.cache w (url ++ "___" ++ tag)
          (tagGetter E repo (getAuthKeyChain d.imageAuthMap url) tag) =
        ((tagGetter E repo (getAuthKeyChain d.imageAuthMap url) tag u).1, cache1, w1) →
      (E.remoteList u repo (getAuthKeyChain d.imageAuthMap url) = .error e ∨
        ∃ tags, E.remoteList u repo (getAuthKeyChain d.imageAuthMap url) = .ok tags ∧
          E.GetHighestVersionWithFilter tags tag = .error e) →
      GetImageString E Get d w url tag =
        { out := .returned "" (some e), cache := cache1, world := w1 }) ∧
    (∀ repo v e cache1 w1, Contains tag "*" = true →
      E.NewRepository url = .ok repo →
      Get d.cache w (url ++ "___" ++ tag)
          (tagGetter E repo (getAuthKeyChain d.imageAuthMap url) tag) =
        ((v, some e), cache1, w1) →
      GetImageString E Get d w url tag =
        { out := .returned "" (some e), cache := cache1, world := w1 }) := by
  refine ⟨?_, ?_, ?_, ?_, ?_⟩
  · intro e htag hparse
    rw [GetImageString_of_exact E Get d w url tag htag]
    simp [getImageDigestHash, hparse]
  · intro e htag hrepo
    rw [GetImageString_of_wildcard E Get d w url tag htag]
    simp [getImageHighestVersionTag, hrepo]
  · intro ref u e cache1 w1 htag hparse hget herr
    rw [digestGetter_error E ref _ u e herr] at hget
    rw [GetImageString_of_exact E Get d w url tag htag]
    exact getImageDigestHash_of_get E Get d w url tag ref "" (some e) cache1 w1 hparse hget
  · intro repo u e cache1 w1 htag hrepo hget herr
    rw [tagGetter_error E repo _ tag u e herr] at hget
    rw [GetImageString_of_wildcard E Get d w url tag htag]
    simp [getImageHighestVersionTag, hrepo, hget]
  · intro repo v e cache1 w1 htag hrepo hget
    rw [GetImageString_of_wildcard E Get d w url tag htag]
    simp [getImageHighestVersionTag, hrepo, hget]

/-- Witness of `GetImageString_returns_error` on the sample registry, with
the cache of the specification, empty: a url with a blank on either path; an
unknown manifest and a manifest without digest on the exact-tag path; an
unknown repository and a pattern without match on the wildcard path. -/
theorem GetImageString_returns_error_witness :
    (GetImageString sampleEnv Cache.Get sampleRegistry sampleWorld "my repo" "1.2.3").out =
      .returned "" (some { msg := "could not parse reference" }) ∧
    (GetImageString sampleEnv Cache.Get sampleRegistry sampleWorld "my repo" "1.*").out =
      .returned "" (some { msg := "repository can only contain valid characters" }) ∧
    (GetImageString sampleEnv Cache.Get sampleRegistry sampleWorld "repo" "9.9.9").out =
      .returned ("repo" ++ "@" ++ "") (some { msg := "MANIFEST_UNKNOWN" }) ∧
    (GetImageString sampleEnv Cache.Get sampleRegistry sampleWorld "repo" "broken").out =
      .returned ("repo" ++ "@" ++ "") (some { msg := "manifest has no digest" }) ∧
    (GetImageString sampleEnv Cache.Get sampleRegistry sampleWorld "other" "1.*").out =
      .returned "" (some { msg := "NAME_UNKNOWN" }) ∧
    (GetImageString sampleEnv Cache.Get sampleRegistry sampleWorld "repo" "2.*").out =
      .returned "" (some { msg := "no matching tag" }) ∧
    (GetImageString sampleEnv Cache.Get sampleRegistry sampleWorld "other" "7.*").out =
      .returned "" (some { msg := "NAME_UNKNOWN" }) :=
  ⟨congrArg Resolution.out
      ((GetImageString_returns_error sampleEnv Cache.Get sampleRegistry sampleWorld
        "my repo" "1.2.3").1 { msg := "could not parse reference" } (by decide) rfl),
    congrArg Resolution.out
      ((GetImageString_returns_error sampleEnv Cache.Get sampleRegistry sampleWorld
        "my repo" "1.*").2.1 { msg := "repository can only contain valid characters" }
        (by decide) rfl),
    congrArg Resolution.out
      ((GetImageString_returns_error sampleEnv Cache.Get sampleRegistry sampleWorld
        "repo" "9.9.9").2.2.1 { name := "repo:9.9.9" } sampleWorld
        { msg := "MANIFEST_UNKNOWN" }
        (Cache.Get sampleRegistry.cache sampleWorld ("repo" ++ ":" ++ "9.9.9")
          (digestGetter sampleEnv { name := "repo:9.9.9" }
            (getAuthKeyChain sampleRegistry.imageAuthMap "repo"))).2.1
        (Cache.Get sampleRegistry.cache sampleWorld ("repo" ++ ":" ++ "9.9.9")
          (digestGetter sampleEnv { name := "repo:9.9.9" }
            (getAuthKeyChain sampleRegistry.imageAuthMap "repo"))).2.2
        (by decide) rfl (by decide) (Or.inl rfl)),
    congrArg Resolution.out
      ((GetImageString_returns_error sampleEnv Cache.Get sampleRegistry sampleWorld
        "repo" "broken").2.2.1 { name := "repo:broken" } sampleWorld
        { msg := "manifest has no digest" }
        (Cache.Get sampleRegistry.cache sampleWorld ("repo" ++ ":" ++ "broken")
          (digestGetter sampleEnv { name := "repo:broken" }
            (getAuthKeyChain sampleRegistry.imageAuthMap "repo"))).2.1
        (Cache.Get sampleRegistry.cache sampleWorld ("repo" ++ ":" ++ "broken")
          (digestGetter sampleEnv { name := "repo:broken" }
            (getAuthKeyChain sampleRegistry.imageAuthMap "repo"))).2.2
        (by decide) rfl (by decide) (Or.inr ⟨{ manifest := "corrupt" }, rfl, rfl⟩)),
    congrArg Resolution.out
      ((GetImageString_returns_error sampleEnv Cache.Get sampleRegistry sampleWorld
        "other" "1.*").2.2.2.1 { name := "other" } sampleWorld { msg := "NAME_UNKNOWN" }
        (Cache.Get sampleRegistry.cache sampleWorld ("other" ++ "___" ++ "1.*")
          (tagGetter sampleEnv { name := "other" }
            (getAuthKeyChain sampleRegistry.imageAuthMap "other") "1.*")).2.1
        (Cache.Get sampleRegistry.cache sampleWorld ("other" ++ "___" ++ "1.*")
          (tagGetter sampleEnv { name := "other" }
            (getAuthKeyChain sampleRegistry.imageAuthMap "other") "1.*")).2.2
        (by decide) rfl (by decide) (Or.inl rfl)),
    congrArg Resolution.out
      ((GetImageString_returns_error sampleEnv Cache.Get sampleRegistry sampleWorld
        "repo" "2.*").2.2.2.1 { name := "repo" } sampleWorld { msg := "no matching tag" }
        (Cache.Get sampleRegistry.cache sampleWorld ("repo" ++ "___" ++ "2.*")
          (tagGetter sampleEnv { name := "repo" }
            (getAuthKeyChain sampleRegistry.imageAuthMap "repo") "2.*")).2.1
        (Cache.Get sampleRegistry.cache sampleWorld ("repo" ++ "___" ++ "2.*")
          (tagGetter sampleEnv { name := "repo" }
            (getAuthKeyChain sampleRegistry.imageAuthMap "repo") "2.*")).2.2
        (by decide) rfl (by decide) (Or.inr ⟨["1.0", "1.5"], rfl, rfl⟩)),
    congrArg Resolution.out
      ((GetImageString_returns_error sampleEnv Cache.Get sampleRegistry sampleWorld
        "other" "7.*").2.2.2.2 { name := "other" } (GoValue.str "")
        { msg := "NAME_UNKNOWN" }
        (Cache.Get sampleRegistry.cache sampleWorld ("other" ++ "___" ++ "7.*")
          (tagGetter sampleEnv { name := "other" }
            (getAuthKeyChain sampleRegistry.imageAuthMap "other") "7.*")).2.1
        (Cache.Get sampleRegistry.cache sampleWorld ("other" ++ "___" ++ "7.*")
          (tagGetter sampleEnv { name := "other" }
            (getAuthKeyChain sampleRegistry.imageAuthMap "other") "7.*")).2.2
        (by decide) rfl (by decide))⟩

/-! ## The cache -/

/-- The sample resolver is the one `NewRemoteRegistry` builds from the routing
example and the duration 60. -/
theorem NewRemoteRegistry_sample : NewRemoteRegistry sampleRules 60 = sampleRegistry := rfl

theorem Cache.find_store_self (c : Cache) (key : String) (e : CacheEntry) :
    (c.store key e).find key = some e := by
  simp [Cache.find, Cache.store, List.lookup]

theorem Cache.Get_of_fresh (c : Cache) (w : World) (key : String) (g : Getter)
    (h : c.isFresh w.now key = true) :
    ∃ e, c.find key = some e ∧ Cache.Get c w key g = (e.value, c, w) := by
  unfold Cache.isFresh at h
  cases hf : c.find key with
  | none => simp [hf] at h
  | some e =>
    simp only [hf] at h
    exact ⟨e, rfl, by simp [Cache.Get, hf, h]⟩

theorem Cache.Get_of_miss (c : Cache) (w : World) (key : String) (g : Getter)
    (h : c.isFresh w.now key = false) :
    Cache.Get c w key g = c.compute w key g := by
  unfold Cache.isFresh at h
  cases hf : c.find key with
  | none => simp [Cache.Get, hf]
  | some e =>
    simp only [hf] at h
    simp [Cache.Get, hf, h]

theorem Cache.compute_fst (c : Cache) (w : World) (key : String) (g : Getter) :
    (c.compute w key g).1 = (g w).1 ∧ (c.compute w key g).2.2 = (g w).2 ∧
    ∃ e, (c.compute w key g).2.1.find key = some e ∧ e.value = (g w).1 := by
  unfold Cache.compute
  exact ⟨rfl, rfl, _, Cache.find_store_self c key _, rfl⟩

/-- After `Get` the cache holds, under the key, the result `Get` returned. -/
theorem Cache.Get_entry (c : Cache) (w : World) (key : String) (g : Getter) :
    ∃ e, (Cache.Get c w key g).2.1.find key = some e ∧
      e.value = (Cache.Get c w key g).1 := by
  cases h : c.isFresh w.now key with
  | true =>
    obtain ⟨e, hf, hg⟩ := Cache.Get_of_fresh c w key g h
    exact ⟨e, by rw [hg]; exact hf, by rw [hg]⟩
  | false =>
    rw [Cache.Get_of_miss c w key g h]
    obtain ⟨_, _, e, he, hv⟩ := Cache.compute_fst c w key g
    exact ⟨e, he, hv.trans (Cache.compute_fst c w key g).1.symm⟩

theorem Cache.find_store_of_ne (c : Cache) (key key2 : String) (e : CacheEntry)
    (h : key2 ≠ key) : (c.store key e).find key2 = c.find key2 := by
  have hb : (key2 == key) = false := by simpa using h
  simp only [Cache.find, Cache.store, List.lookup, hb]
  induction c.entries with
  | nil => rfl
  | cons p rest ih =>
    obtain ⟨k, v⟩ := p
    by_cases hk : k = key
    · subst hk
      simp [List.filter, List.lookup, hb, ih]
    · have hk2 : (k != key) = true := by simpa using hk
      simp only [List.filter, hk2, List.lookup, ih]

/-- A `Get` under one key leaves the entries under every other key as they
are. -/
theorem Cache.Get_find_of_ne (c : Cache) (w : World) (key key2 : String) (g : Getter)
    (h : key2 ≠ key) : (Cache.Get c w key g).2.1.find key2 = c.find key2 := by
  cases hf : c.isFresh w.now key with
  | true =>
    obtain ⟨e, _, hg⟩ := Cache.Get_of_fresh c w key g hf
    rw [hg]
  | false =>
    rw [Cache.Get_of_miss c w key g hf]
    unfold Cache.compute
    exact Cache.find_store_of_ne c key key2 _ h

/-- The entry a `Get` leaves after a miss is fresh exactly until its TTL has
elapsed since the call: the TTL of successes after a success, the failure TTL
after a failure. -/
theorem Cache.isFresh_after_miss (c : Cache) (w : World) (key : String) (g : Getter)
    (t2 : Nat) (hmiss : c.isFresh w.now key = false) (hnow : (g w).2.now = w.now) :
    (Cache.Get c w key g).2.1.isFresh t2 key =
      decide (t2 - w.now ≤ match (g w).1.2 with
        | none => c.ttl
        | some _ => c.failureTtl) := by
  rw [Cache.Get_of_miss c w key g hmiss]
  unfold Cache.compute Cache.isFresh
  simp only [Cache.find_store_self, CacheEntry.fresh, hnow]

/-- A second `Get` for a key, made while the entry the first one left is
fresh, returns what the first returned and leaves cache and world as they
are: the compute function is not invoked. -/
theorem Cache.Get_again (c : Cache) (w w2 : World) (key : String) (g g2 : Getter)
    (hwin : (Cache.Get c w key g).2.1.isFresh w2.now key = true) :
    Cache.Get (Cache.Get c w key g).2.1 w2 key g2 =
      ((Cache.Get c w key g).1, (Cache.Get c w key g).2.1, w2) := by
  obtain ⟨e, hf, hg⟩ := Cache.Get_of_fresh _ w2 key g2 hwin
  obtain ⟨e1, hf1, hv1⟩ := Cache.Get_entry c w key g
  have : e = e1 := Option.some.inj (hf.symm.trans hf1)
  rw [hg, this, hv1]

/-! ## Memoization -/

theorem getImageDigestHash_eq {σ : Type} (E : Env) (Get : CacheGet σ)
    (d : RemoteRegistryDocker σ) (w : World) (url tag : String) (ref : Reference)
    (hparse : E.ParseReference (url ++ ":" ++ tag) = .ok ref) :
    getImageDigestHash E Get d w url tag =
      { out := digestOutcome url (Get d.cache w (url ++ ":" ++ tag)
          (digestGetter E ref (getAuthKeyChain d.imageAuthMap url))).1,
        cache := (Get d.cache w (url ++ ":" ++ tag)
          (digestGetter E ref (getAuthKeyChain d.imageAuthMap url))).2.1,
        world := (Get d.cache w (url ++ ":" ++ tag)
          (digestGetter E ref (getAuthKeyChain d.imageAuthMap url))).2.2 } := by
  simp only [getImageDigestHash, hparse]
  generalize Get d.cache w (url ++ ":" ++ tag)
    (digestGetter E ref (getAuthKeyChain d.imageAuthMap url)) = r
  obtain ⟨⟨hash, err⟩, cache, w1⟩ := r
  cases hash <;> simp [digestOutcome, GoValue.assertString]

theorem getImageHighestVersionTag_eq {σ : Type} (E : Env) (Get : CacheGet σ)
    (d : RemoteRegistryDocker σ) (w : World) (url tag : String) (repo : Repository)
    (hrepo : E.NewRepository url = .ok repo) :
    getImageHighestVersionTag E Get d w url tag =
      { out := tagOutcome url (Get d.cache w (url ++ "___" ++ tag)
          (tagGetter E repo (getAuthKeyChain d.imageAuthMap url) tag)).1,
        cache := (Get d.cache w (url ++ "___" ++ tag)
          (tagGetter E repo (getAuthKeyChain d.imageAuthMap url) tag)).2.1,
        world := (Get d.cache w (url ++ "___" ++ tag)
          (tagGetter E repo (getAuthKeyChain d.imageAuthMap url) tag)).2.2 } := by
  simp only [getImageHighestVersionTag, hrepo]
  generalize Get d.cache w (url ++ "___" ++ tag)
    (tagGetter E repo (getAuthKeyChain d.imageAuthMap url) tag) = r
  obtain ⟨⟨target, err⟩, cache, w1⟩ := r
  cases err <;> cases target <;> simp [tagOutcome, GoValue.assertString]

/-- The form both paths of `GetImageString` take once the name has parsed:
an outcome computed from the result of one `Get` under `cacheKey url tag`,
with a getter that records exactly one transport call. -/
theorem GetImageString_eq_of_parses (E : Env) (url tag : String)
    (hp : parses E url tag = true) (m : List (String × Keychain)) :
    ∃ (post : GoResult → Outcome) (g : Getter),
      (∀ u, ((g u).2).calls.length = u.calls.length + 1) ∧
      ∀ (c : Cache) (w : World),
        GetImageString E Cache.Get { imageAuthMap := m, cache := c } w url tag =
          { out := post (Cache.Get c w (cacheKey url tag) g).1,
            cache := (Cache.Get c w (cacheKey url tag) g).2.1,
            world := (Cache.Get c w (cacheKey url tag) g).2.2 } := by
  unfold parses at hp
  cases htag : Contains tag "*" with
  | true =>
    simp only [htag, if_true] at hp
    cases hrepo : E.NewRepository url with
    | error e => simp [hrepo] at hp
    | ok repo =>
      refine ⟨tagOutcome url, tagGetter E repo (getAuthKeyChain m url) tag, ?_, ?_⟩
      · intro u
        rw [tagGetter_calls]
        simp
      · intro c w
        rw [GetImageString_of_wildcard E Cache.Get _ w url tag htag,
          cacheKey_of_wildcard url tag htag]
        exact getImageHighestVersionTag_eq E Cache.Get _ w url tag repo hrepo
  | false =>
    simp only [htag, Bool.false_eq_true, if_false] at hp
    cases hparse : E.ParseReference (url ++ ":" ++ tag) with
    | error e => simp [hparse] at hp
    | ok ref =>
      refine ⟨digestOutcome url, digestGetter E ref (getAuthKeyChain m url), ?_, ?_⟩
      · intro u
        rw [digestGetter_calls]
        simp
      · intro c w
        rw [GetImageString_of_exact E Cache.Get _ w url tag htag,
          cacheKey_of_exact url tag htag]
        exact getImageDigestHash_eq E Cache.Get _ w url tag ref hparse

/-- When the name does not parse, `GetImageString` returns the parse error
and touches neither cache nor world. -/
theorem GetImageString_eq_of_not_parses {σ : Type} (E : Env) (Get : CacheGet σ)
    (url tag : String) (hp : parses E url tag = false) :
    ∃ e, ∀ (d : RemoteRegistryDocker σ) (w : World),
      GetImageString E Get d w url tag =
        { out := .returned "" (some e), cache := d.cache, world := w } := by
  unfold parses at hp
  cases htag : Contains tag "*" with
  | true =>
    simp only [htag, if_true] at hp
    cases hrepo : E.NewRepository url with
    | ok repo => simp [hrepo] at hp
    | error e =>
      refine ⟨e, fun d w => ?_⟩
      rw [GetImageString_of_wildcard E Get d w url tag htag]
      simp [getImageHighestVersionTag, hrepo]
  | false =>
    simp only [htag, Bool.false_eq_true, if_false] at hp
    cases hparse : E.ParseReference (url ++ ":" ++ tag) with
    | ok ref => simp [hparse] at hp
    | error e =>
      refine ⟨e, fun d w => ?_⟩
      rw [GetImageString_of_exact E Get d w url tag htag]
      simp [getImageDigestHash, hparse]

/-- With the cache of the specification one call of `GetImageString` calls
the transport at most once. -/
theorem GetImageString_calls_le (E : Env) (d : RemoteRegistryDocker Cache) (w : World)
    (url tag : String) :
    (GetImageString E Cache.Get d w url tag).world.calls.length ≤ w.calls.length + 1 := by
  obtain ⟨m, c⟩ := d
  cases hp : parses E url tag with
  | false =>
    obtain ⟨e, he⟩ := GetImageString_eq_of_not_parses E Cache.Get url tag hp
    simp [he]
  | true =>
    obtain ⟨post, g, hcalls, hform⟩ := GetImageString_eq_of_parses E url tag hp m
    rw [hform]
    cases hf : c.isFresh w.now (cacheKey url tag) with
    | true =>
      obtain ⟨e, _, hg⟩ := Cache.Get_of_fresh c w (cacheKey url tag) g hf
      simp [hg]
    | false =>
      rw [Cache.Get_of_miss c w (cacheKey url tag) g hf, (Cache.compute_fst c w _ g).2.1,
        hcalls w]

/-- Claim C8: two resolutions of the same `(url, tag)` by `GetImageString`,
the second made while the cache entry the first one left under the key is
within its TTL, return the same result, success or failure; the second
leaves the cache as it is and calls the transport not at all; and when the
name parses and the first call found no fresh entry, the transport is called
exactly once across both calls. -/
theorem GetImageString_memoized (E : Env) (d : RemoteRegistryDocker Cache) (w : World)
    (url tag : String) (t2 : Nat)
    (hwin : (resolveTwice E d w url tag t2).1.cache.isFresh t2 (cacheKey url tag) = true) :
    (resolveTwice E d w url tag t2).2.out = (resolveTwice E d w url tag t2).1.out ∧
    (resolveTwice E d w url tag t2).2.cache = (resolveTwice E d w url tag t2).1.cache ∧
    (resolveTwice E d w url tag t2).2.world.calls =
      (resolveTwice E d w url tag t2).1.world.calls ∧
    (parses E url tag = true → d.cache.isFresh w.now (cacheKey url tag) = false →
      (resolveTwice E d w url tag t2).2.world.calls.length = w.calls.length + 1) := by
  obtain ⟨m, c⟩ := d
  cases hp : parses E url tag with
  | false =>
    obtain ⟨e, he⟩ := GetImageString_eq_of_not_parses E Cache.Get url tag hp
    simp [resolveTwice, he]
  | true =>
    obtain ⟨post, g, hcalls, hform⟩ := GetImageString_eq_of_parses E url tag hp m
    simp only [resolveTwice, hform] at hwin ⊢
    have hagain := Cache.Get_again c w
      { (Cache.Get c w (cacheKey url tag) g).2.2 with now := t2 } (cacheKey url tag) g g hwin
    rw [hagain]
    refine ⟨rfl, rfl, rfl, ?_⟩
    intro _ hmiss
    rw [Cache.Get_of_miss c w (cacheKey url tag) g hmiss, (Cache.compute_fst c w _ g).2.1]
    exact hcalls w

/-- Witness of `GetImageString_memoized`: the digest fetch of the sample
registry fails at time 100 and entries live for 60; a second resolution at
time 104 returns the same failure and the transport has been called once. -/
theorem GetImageString_memoized_witness :
    (resolveTwice sampleEnv sampleRegistry sampleWorld "repo" "9.9.9" 104).2.out =
      (resolveTwice sampleEnv sampleRegistry sampleWorld "repo" "9.9.9" 104).1.out ∧
    (resolveTwice sampleEnv sampleRegistry sampleWorld "repo" "9.9.9" 104).2.world.calls.length =
      sampleWorld.calls.length + 1 :=
  ⟨(GetImageString_memoized sampleEnv sampleRegistry sampleWorld "repo" "9.9.9" 104
      (by decide)).1,
    (GetImageString_memoized sampleEnv sampleRegistry sampleWorld "repo" "9.9.9" 104
      (by decide)).2.2.2 (by decide) (by decide)⟩

/-! ## The Google Chat card -/

theorem rowsOfTwo_length {α : Type} : ∀ l : List α, (rowsOfTwo l).length = (l.length + 1) / 2
  | [] => by simp [rowsOfTwo]
  | [_] => by simp [rowsOfTwo]
  | _ :: _ :: rest => by
    simp only [rowsOfTwo, List.length_cons, rowsOfTwo_length rest]
    omega

theorem rowsOfTwo_row_length {α : Type} :
    ∀ (l : List α) (row : List α), row ∈ rowsOfTwo l → row.length = 1 ∨ row.length = 2
  | [], row, h => by simp [rowsOfTwo] at h
  | [_], row, h => by
    simp only [rowsOfTwo, List.mem_singleton] at h
    exact Or.inl (by rw [h]; rfl)
  | _ :: _ :: rest, row, h => by
    simp only [rowsOfTwo, List.mem_cons] at h
    rcases h with h | h
    · exact Or.inr (by rw [h]; rfl)
    · exact rowsOfTwo_row_length rest row h

theorem rowsOfTwo_full_rows {α : Type} :
    ∀ (l : List α) (i : Nat) (row : List α), i + 1 < (rowsOfTwo l).length →
      (rowsOfTwo l)[i]? = some row → row.length = 2
  | [], i, row, h, _ => by simp [rowsOfTwo] at h
  | [_], i, row, h, _ => by simp [rowsOfTwo] at h
  | a :: b :: rest, 0, row, _, hrow => by
    simp only [rowsOfTwo, List.getElem?_cons_zero, Option.some.injEq] at hrow
    rw [← hrow]
    rfl
  | a :: b :: rest, i + 1, row, h, hrow => by
    simp only [rowsOfTwo, List.getElem?_cons_succ] at hrow
    simp only [rowsOfTwo, List.length_cons] at h
    exact rowsOfTwo_full_rows rest i row (by omega) hrow

theorem lastClosed_textWidget (msg : String) : lastClosed [textWidget msg] = true := rfl

theorem lastClosed_append_pair (widgets : List chat.GoogleAppsCardV1Widget)
    (a b : String × String) : lastClosed (widgets ++ [rowWidget [a, b]]) = true := by
  unfold lastClosed
  rw [List.getLast?_concat]
  rfl

theorem addColumn_of_lastClosed (widgets : List chat.GoogleAppsCardV1Widget)
    (column : String × String) (h : lastClosed widgets = true) :
    addColumn widgets column = some (widgets ++ [rowWidget [column]]) := by
  unfold lastClosed at h
  unfold addColumn
  cases hl : widgets.getLast? with
  | none => simp [hl] at h
  | some last =>
    simp only [hl] at h ⊢
    cases hc : last.Columns with
    | none => simp [rowWidget]
    | some cols =>
      simp only [hc, decide_eq_true_eq] at h
      simp [h, rowWidget]

theorem addColumn_of_single (widgets : List chat.GoogleAppsCardV1Widget)
    (a column : String × String) :
    addColumn (widgets ++ [rowWidget [a]]) column =
      some (widgets ++ [rowWidget [a, column]]) := by
  unfold addColumn
  rw [List.getLast?_concat]
  simp [rowWidget, columnsWidget]

theorem addColumns_of_lastClosed :
    ∀ (columns : List (String × String)) (widgets : List chat.GoogleAppsCardV1Widget),
      lastClosed widgets = true →
      addColumns widgets columns = some (widgets ++ (rowsOfTwo columns).map rowWidget)
  | [], widgets, _ => by simp [addColumns, rowsOfTwo]
  | [a], widgets, h => by
    simp [addColumns, rowsOfTwo, addColumn_of_lastClosed widgets a h]
  | a :: b :: rest, widgets, h => by
    have ih := addColumns_of_lastClosed rest (widgets ++ [rowWidget [a, b]])
      (lastClosed_append_pair widgets a b)
    simp only [addColumns, addColumn_of_lastClosed widgets a h,
      addColumn_of_single widgets a b, ih, rowsOfTwo, List.map_cons, List.append_assoc,
      List.singleton_append]

theorem columnItems_rowWidget (row : List (String × String)) :
    columnItems (rowWidget row) = row.map (fun c => toChatColumn c.1 c.2) := rfl

theorem flatMap_columnItems_rows : ∀ columns : List (String × String),
    ((rowsOfTwo columns).map rowWidget).flatMap columnItems =
      columns.map (fun c => toChatColumn c.1 c.2)
  | [] => rfl
  | [_] => rfl
  | a :: b :: rest => by
    simp only [rowsOfTwo, List.map_cons, List.flatMap_cons, columnItems_rowWidget,
      flatMap_columnItems_rows rest, List.map_nil, List.cons_append, List.nil_append]

/-- Claim C10: for every text `msg` and every list of `n` columns,
`toChatMsg` produces a message with exactly one card, of id `card1`, with one
section whose first widget is the text paragraph `msg`, followed by
`ceil(n/2)` column widgets, the rows of two of the columns; every column
widget has no text paragraph and holds 1 or 2 column items, every one but the
last holds exactly 2, and the column items read widget by widget are the
input columns in their order, each as the text paragraphs of its name and its
value. -/
theorem toChatMsg_layout (msg : String) (columns : List (String × String)) :
    toChatMsg msg columns =
      some { CardsV2 := [
        { Card := { Sections := [
            { Collapsible := false,
              Widgets := { TextParagraph := some { Text := msg }, Columns := none } ::
                (rowsOfTwo columns).map rowWidget } ] },
          CardId := "card1" } ] } ∧
    ((rowsOfTwo columns).map rowWidget).length = (columns.length + 1) / 2 ∧
    (∀ wd ∈ (rowsOfTwo columns).map rowWidget,
      wd.TextParagraph = none ∧ wd.Columns.isSome = true ∧
      ((columnItems wd).length = 1 ∨ (columnItems wd).length = 2)) ∧
    (∀ (i : Nat) (wd : chat.GoogleAppsCardV1Widget),
      i + 1 < ((rowsOfTwo columns).map rowWidget).length →
      ((rowsOfTwo columns).map rowWidget)[i]? = some wd →
      (columnItems wd).length = 2) ∧
    ((rowsOfTwo columns).map rowWidget).flatMap columnItems =
      columns.map (fun c =>
        ({ Widgets := [ { TextParagraph := some { Text := c.1 } },
                        { TextParagraph := some { Text := c.2 } } ] } :
          chat.GoogleAppsCardV1Column)) := by
  refine ⟨?_, ?_, ?_, ?_, ?_⟩
  · unfold toChatMsg
    rw [addColumns_of_lastClosed columns [textWidget msg] (lastClosed_textWidget msg)]
    rfl
  · rw [List.length_map, rowsOfTwo_length]
  · intro wd hwd
    obtain ⟨row, hrow, rfl⟩ := List.mem_map.mp hwd
    refine ⟨rfl, rfl, ?_⟩
    rw [columnItems_rowWidget, List.length_map]
    exact rowsOfTwo_row_length columns row hrow
  · intro i wd hi hwd
    rw [List.length_map] at hi
    rw [List.getElem?_map] at hwd
    cases hrow : (rowsOfTwo columns)[i]? with
    | none => simp [hrow] at hwd
    | some row =>
      simp only [hrow, Option.map_some', Option.some.injEq] at hwd
      rw [← hwd, columnItems_rowWidget, List.length_map]
      exact rowsOfTwo_full_rows columns i row hi hrow
  · exact flatMap_columnItems_rows columns

/-- Witness of `toChatMsg_layout` on the three columns the backend sends: the
card holds the text and two column widgets, the first with the two columns
`Level` and `Env`, the second with the column `File`. -/
theorem toChatMsg_layout_witness :
    ((rowsOfTwo sampleColumns).map rowWidget).length = 2 ∧
    (columnItems (rowWidget [("Level", "info"), ("Env", "prod")])).length = 2 ∧
    ((columnItems (rowWidget [("File", "main.go:10")])).length = 1 ∨
      (columnItems (rowWidget [("File", "main.go:10")])).length = 2) :=
  ⟨(toChatMsg_layout "image updated" sampleColumns).2.1,
    (toChatMsg_layout "image updated" sampleColumns).2.2.2.1 0
      (rowWidget [("Level", "info"), ("Env", "prod")]) (by decide) (by decide),
    ((toChatMsg_layout "image updated" sampleColumns).2.2.1
      (rowWidget [("File", "main.go:10")]) (by decide)).2.2⟩

end KubeImageDeployer
